import Mathlib

/-!
Shallow embedding of `folding-schemes/src/folding/nova/circuits.rs`
(the Nova `AugmentedFCircuit` and its `generate_constraints` synthesis),
together with spec-modelled versions of the gadget dependencies that live
outside the given source (NIFS gadget, challenge gadgets, committed-instance
hashes, CycleFold full-fold gadget, Poseidon sponge capability).

The primary circuit is native over `C1`'s scalar field (modelled as `ZMod p`);
`C1`'s base field, which is `C2`'s scalar field, is modelled as `ZMod q`.
Curve points are modelled as coordinate pairs: the curve group law itself is an
external capability (commitments are never opened in-circuit), so points on
`C1` are pairs of `ZMod q` coordinates and points on `C2` are pairs of
`ZMod p` coordinates, with a formal componentwise group structure standing in
for the opaque curve arithmetic.

Constraint synthesis is embedded as a pure function from the per-step witness
bundle to a `Trace` recording every allocated value, the ordered list of
allocations (kind and name), and the list of enforced equality constraints.
-/

namespace Sonobe

/-- Number of bits squeezed for a Fiat-Shamir challenge.
Modelled from the spec: the challenge gadgets squeeze a fixed number of bits
(`N_BITS_RO` in the implementation, not part of the given source). -/
def NBITS : Nat := 128

/-- Little-endian bit decomposition of a natural number, padded/truncated to
the given length. -/
def natToBits : Nat → Nat → List Bool
  | _, 0 => []
  | n, k+1 => (n % 2 = 1) :: natToBits (n / 2) k

/-- Value of a little-endian bit list. -/
def bitsToNat (bs : List Bool) : Nat :=
  bs.foldr (fun b acc => (if b then 1 else 0) + 2 * acc) 0

/-- In-circuit recomposition of little-endian bits into a field element,
mirroring `Boolean::le_bits_to_fp_var` (a weighted sum over the bits computed
inside the field). -/
def leBitsToFp (p : Nat) (bs : List Bool) : ZMod p :=
  bs.foldr (fun b acc => (if b then (1 : ZMod p) else 0) + 2 * acc) 0

/-- Native recomposition of little-endian bits into a field element, mirroring
`F::from_bigint(BigInteger::from_bits_le(bits))`: the integer value of the
bits, reduced into the field. -/
def fromBitsLE (p : Nat) (bs : List Bool) : ZMod p :=
  (bitsToNat bs : ZMod p)

/-- A point on the primary curve `C1`, whose affine coordinates live in `C1`'s
base field `ZMod q`. The curve group law is an external capability; the
componentwise structure below stands in for it. -/
structure Point1 (q : Nat) where
  x : ZMod q
  y : ZMod q
deriving DecidableEq, Repr

/-- The zero/identity point on `C1`. -/
def Point1.zero (q : Nat) : Point1 q := ⟨0, 0⟩

/-- Point addition on `C1` (opaque curve arithmetic, modelled componentwise). -/
def Point1.add {q : Nat} (P Q : Point1 q) : Point1 q := ⟨P.x + Q.x, P.y + Q.y⟩

/-- Scalar multiplication on `C1` by a natural scalar. -/
def Point1.smul {q : Nat} (n : Nat) (P : Point1 q) : Point1 q :=
  ⟨n • P.x, n • P.y⟩

/-- A point on the CycleFold curve `C2`, whose affine coordinates live in
`C2`'s base field, which equals `C1`'s scalar field `ZMod p`. -/
structure Point2 (p : Nat) where
  x : ZMod p
  y : ZMod p
deriving DecidableEq, Repr

/-- The zero/identity point on `C2`. -/
def Point2.zero (p : Nat) : Point2 p := ⟨0, 0⟩

/-- Point addition on `C2` (opaque curve arithmetic, modelled componentwise). -/
def Point2.add {p : Nat} (P Q : Point2 p) : Point2 p := ⟨P.x + Q.x, P.y + Q.y⟩

/-- Scalar multiplication on `C2` by a natural scalar. -/
def Point2.smul {p : Nat} (n : Nat) (P : Point2 p) : Point2 p :=
  ⟨n • P.x, n • P.y⟩

/-- Nova `CommittedInstance` over `C1`: `cmE`, `cmW` are `C1` points, `u` a
scalar in `C1`'s scalar field, `x` the public-input vector. -/
structure CommittedInstance (p q : Nat) where
  cmE : Point1 q
  u : ZMod p
  cmW : Point1 q
  x : List (ZMod p)
deriving DecidableEq, Repr

/-- `CommittedInstance::dummy(io_len)`: the all-zero instance with `u = 0` and
`x` a zero vector of the declared length. -/
def CommittedInstance.dummy (p q : Nat) (ioLen : Nat) : CommittedInstance p q :=
  { cmE := Point1.zero q, u := 0, cmW := Point1.zero q,
    x := List.replicate ioLen 0 }

/-- `CycleFoldCommittedInstance` over `C2`: points on `C2`, scalars in `C2`'s
scalar field `ZMod q`, represented non-natively inside the primary circuit. -/
structure CycleFoldCommittedInstance (p q : Nat) where
  cmE : Point2 p
  u : ZMod q
  cmW : Point2 p
  x : List (ZMod q)
deriving DecidableEq, Repr

/-- `CycleFoldCommittedInstance::dummy(io_len)`. -/
def CycleFoldCommittedInstance.dummy (p q : Nat) (ioLen : Nat) :
    CycleFoldCommittedInstance p q :=
  { cmE := Point2.zero p, u := 0, cmW := Point2.zero p,
    x := List.replicate ioLen 0 }

/-- `NovaCycleFoldConfig::IO_LEN`. Modelled from the spec: the CycleFold
instance's `x` has a fixed width carrying the non-native representation of the
challenge `r` and the six curve-point coordinates being combined: `1 + 6`. -/
def CycleFoldIOLen : Nat := 7

/-- Coordinates of a `C1` point absorbed into the primary sponge
(`to_constraint_field` on a non-native affine var): each base-field coordinate
enters the native field by its integer value. -/
def point1Coords (p q : Nat) (P : Point1 q) : List (ZMod p) :=
  [(P.x.val : ZMod p), (P.y.val : ZMod p)]

/-- Modelled from the spec: the Poseidon sponge is an opaque cryptographic
capability (its concrete algebra is out of scope); this executable mixing
function stands in for absorbing a list of field elements and squeezing one. -/
def spongeMix (p : Nat) (s : List (ZMod p)) : ZMod p :=
  s.foldl (fun acc a => acc * acc + acc + a + 1) 1

/-- Transcript state: the list of absorbed elements since creation. -/
abbrev SpongeState (p : Nat) := List (ZMod p)

/-- Absorb elements into the sponge. -/
def spongeAbsorb (p : Nat) (s : SpongeState p) (l : List (ZMod p)) :
    SpongeState p := s ++ l

/-- Squeeze `NBITS` bits from the sponge: squeeze one field element and take
its little-endian bit representation; the squeezed element re-enters the
state. -/
def spongeSqueezeBits (p : Nat) (s : SpongeState p) :
    List Bool × SpongeState p :=
  (natToBits (spongeMix p s).val NBITS, spongeMix p s :: s)

/-- Canonical absorbable serialization of a primary committed instance:
`[U.u] ++ U.x ++ coords(U.cmE) ++ coords(U.cmW)`. -/
def CommittedInstance.serialize {p q : Nat} (U : CommittedInstance p q) :
    List (ZMod p) :=
  [U.u] ++ U.x ++ point1Coords p q U.cmE ++ point1Coords p q U.cmW

/-- Modelled from the spec: `CommittedInstanceVar::hash` (not in the given
source): `h = Hash(pp_hash, i, z_0, z_i, U.serialize())`, returning both the
hash and the serialized vector. -/
def CommittedInstance.hash {p q : Nat} (U : CommittedInstance p q)
    (ppHash i : ZMod p) (z0 zi : List (ZMod p)) :
    ZMod p × List (ZMod p) :=
  (spongeMix p ([ppHash, i] ++ z0 ++ zi ++ U.serialize), U.serialize)

/-- Serialization of a CycleFold committed instance into the primary circuit's
native field (`to_native_sponge_field_elements`): the non-native scalar `u`
and vector `x` enter by integer value, the `C2` point coordinates are native. -/
def CycleFoldCommittedInstance.serialize {p q : Nat}
    (U : CycleFoldCommittedInstance p q) : List (ZMod p) :=
  [(U.u.val : ZMod p)] ++ U.x.map (fun a => (a.val : ZMod p)) ++
    [U.cmE.x, U.cmE.y, U.cmW.x, U.cmW.y]

/-- Modelled from the spec: `CycleFoldCommittedInstanceVar::hash` (not in the
given source): `h = Hash(pp_hash, U.serialize())` with no step index or state,
returning both the hash and the serialized vector. -/
def CycleFoldCommittedInstance.hash {p q : Nat}
    (U : CycleFoldCommittedInstance p q) (ppHash : ZMod p) :
    ZMod p × List (ZMod p) :=
  (spongeMix p ([ppHash] ++ U.serialize), U.serialize)

/-- Modelled from the spec: `ChallengeGadget::get_challenge_gadget` (not in
the given source): absorb `pp_hash`, the running instance's serialized vector
(passed in by the caller), the incoming instance's serialization, and the
cross-term commitment's coordinates into the transcript, then squeeze the
challenge bits. Returns the bits and the updated transcript state. -/
def getChallengeGadget (p q : Nat) (ts : SpongeState p) (ppHash : ZMod p)
    (Uvec : List (ZMod p)) (u : CommittedInstance p q) (cmT : Point1 q) :
    List Bool × SpongeState p :=
  spongeSqueezeBits p
    (spongeAbsorb p ts
      ([ppHash] ++ Uvec ++ u.serialize ++ point1Coords p q cmT))

/-- Modelled from the spec: `ChallengeGadget::get_challenge_native` (not in
the given source): same transcript computation as the gadget, but the running
instance is serialized by the function itself from the native instance. -/
def getChallengeNative (p q : Nat) (ts : SpongeState p) (ppHash : ZMod p)
    (U u : CommittedInstance p q) (cmT : Point1 q) :
    List Bool × SpongeState p :=
  spongeSqueezeBits p
    (spongeAbsorb p ts
      ([ppHash] ++ U.serialize ++ u.serialize ++ point1Coords p q cmT))

/-- Modelled from the spec: `NIFSGadget::verify` (not in the given source):
derive the Fiat-Shamir challenge bits from the transcript, then produce the
folded accumulator with `U'.u = U.u + r*u.u` and `U'.x[k] = U.x[k] + r*u.x[k]`;
the `cmE`/`cmW` fields are deferred (left at the running instance's values,
to be overwritten by the caller). Returns `((U', r_bits), transcript')`. -/
def NIFSGadgetVerify (p q : Nat) (ts : SpongeState p) (ppHash : ZMod p)
    (U : CommittedInstance p q) (Uvec : List (ZMod p))
    (u : CommittedInstance p q) (cmT : Point1 q) :
    (CommittedInstance p q × List Bool) × SpongeState p :=
  let res := getChallengeGadget p q ts ppHash Uvec u cmT
  let rBits := res.1
  let r : ZMod p := (bitsToNat rBits : ZMod p)
  (({ cmE := U.cmE, u := U.u + r * u.u, cmW := U.cmW,
      x := List.zipWith (fun a b => a + r * b) U.x u.x }, rBits), res.2)

/-- Modelled from the spec: `CycleFoldChallengeGadget::get_challenge_gadget`
(not in the given source): absorb `pp_hash`, the previous CycleFold
accumulator's serialization, the incoming CycleFold instance's serialization,
and the cross-term commitment's (native) coordinates, then squeeze the
challenge bits. -/
def cfGetChallengeGadget (p q : Nat) (ts : SpongeState p) (ppHash : ZMod p)
    (cfUvec : List (ZMod p)) (cfu : CycleFoldCommittedInstance p q)
    (cmT : Point2 p) : List Bool × SpongeState p :=
  spongeSqueezeBits p
    (spongeAbsorb p ts ([ppHash] ++ cfUvec ++ cfu.serialize ++ [cmT.x, cmT.y]))

/-- Modelled from the spec: `NIFSFullGadget::fold_committed_instance` (not in
the given source): fold all four fields of the CycleFold accumulator by direct
in-circuit curve arithmetic, scalar multiplication by the challenge being
native here: `cmE' = cmE + r·cmT + r²·u.cmE`, `cmW' = cmW + r·u.cmW`,
`u' = U.u + r·u.u`, `x'[k] = U.x[k] + r·u.x[k]`. -/
def NIFSFullGadgetFold (p q : Nat) (rBits : List Bool) (cmT : Point2 p)
    (U u : CycleFoldCommittedInstance p q) : CycleFoldCommittedInstance p q :=
  let rn : Nat := bitsToNat rBits
  let r : ZMod q := (rn : ZMod q)
  { cmE := (U.cmE.add (Point2.smul rn cmT)).add (Point2.smul (rn * rn) u.cmE),
    u := U.u + r * u.u,
    cmW := U.cmW.add (Point2.smul rn u.cmW),
    x := List.zipWith (fun a b => a + r * b) U.x u.x }

/-- The external step-function capability `F`: state width, external-input
width, and the constraint-generation entry point taking the native step index,
current-state witnesses, and external-input witnesses. -/
structure FCirc (p : Nat) where
  stateLen : Nat
  externalInputsLen : Nat
  step : Nat → List (ZMod p) → List (ZMod p) → List (ZMod p)

/-- The per-step witness bundle: the fields of `AugmentedFCircuit` that feed
one call to `generate_constraints` (the Poseidon config and `PhantomData` are
capability plumbing carried by the sponge model and the type parameters). -/
structure Bundle (p q : Nat) where
  pp_hash : Option (ZMod p)
  i : Option (ZMod p)
  i_usize : Option Nat
  z_0 : Option (List (ZMod p))
  z_i : Option (List (ZMod p))
  external_inputs : Option (List (ZMod p))
  u_i_cmW : Option (Point1 q)
  U_i : Option (CommittedInstance p q)
  U_i1_cmE : Option (Point1 q)
  U_i1_cmW : Option (Point1 q)
  cmT : Option (Point1 q)
  x : Option (ZMod p)
  cf1_u_i_cmW : Option (Point2 p)
  cf2_u_i_cmW : Option (Point2 p)
  cf_U_i : Option (CycleFoldCommittedInstance p q)
  cf1_cmT : Option (Point2 p)
  cf2_cmT : Option (Point2 p)
  cf_x : Option (ZMod p)

/-- `AugmentedFCircuit::empty`: every bundle field absent. -/
def Bundle.empty (p q : Nat) : Bundle p q :=
  { pp_hash := none, i := none, i_usize := none, z_0 := none, z_i := none,
    external_inputs := none, u_i_cmW := none, U_i := none, U_i1_cmE := none,
    U_i1_cmW := none, cmT := none, x := none, cf1_u_i_cmW := none,
    cf2_u_i_cmW := none, cf_U_i := none, cf1_cmT := none, cf2_cmT := none,
    cf_x := none }

/-- Kind of a constraint-system allocation. -/
inductive AllocKind where
  | witness
  | input
  | constant
deriving DecidableEq, Repr

/-- One allocation performed during synthesis: its kind, the name of the
allocated value in the source, and the number of native field elements it
occupies in the model. -/
structure Alloc where
  kind : AllocKind
  name : String
  count : Nat
deriving DecidableEq, Repr

/-- The complete record of one run of
`AugmentedFCircuit::generate_constraints`: every value computed during
synthesis, the ordered allocation list, and the list of enforced equality
constraints (each pair must be equal for the constraint system to be
satisfied). -/
structure Trace (p q : Nat) where
  pp_hash : ZMod p
  i : ZMod p
  z_0 : List (ZMod p)
  z_i : List (ZMod p)
  external_inputs : List (ZMod p)
  U_i : CommittedInstance p q
  U_i1_cmE : Point1 q
  U_i1_cmW : Point1 q
  cmT : Point1 q
  cf_U_i : CycleFoldCommittedInstance p q
  cf1_cmT : Point2 p
  cf2_cmT : Point2 p
  is_basecase : Bool
  u_i_x : ZMod p
  U_i_vec : List (ZMod p)
  cf_u_i_x : ZMod p
  cf_U_i_vec : List (ZMod p)
  u_i : CommittedInstance p q
  U_i1 : CommittedInstance p q
  r_bits : List Bool
  r_nonnat : Nat
  stepIndex : Nat
  z_i1 : List (ZMod p)
  u_i1_x : ZMod p
  u_i1_x_base : ZMod p
  x : ZMod p
  cfW_x : List (ZMod q)
  cfE_x : List (ZMod q)
  cf1_u_i : CycleFoldCommittedInstance p q
  cf2_u_i : CycleFoldCommittedInstance p q
  cf1_r_bits : List Bool
  cf1_U_i1 : CycleFoldCommittedInstance p q
  cf2_r_bits : List Bool
  cf_U_i1 : CycleFoldCommittedInstance p q
  cf_u_i1_x : ZMod p
  cf_u_i1_x_base : ZMod p
  cf_x : ZMod p
  allocs : List Alloc
  constraints : List (ZMod p × ZMod p)

/-- A constraint system is satisfied when every enforced equality holds. -/
def Trace.satisfied {p q : Nat} (t : Trace p q) : Prop :=
  ∀ pr ∈ t.constraints, pr.1 = pr.2

instance {p q : Nat} (t : Trace p q) : Decidable t.satisfied := by
  unfold Trace.satisfied; infer_instance

/-- Shallow embedding of `AugmentedFCircuit::generate_constraints`
(`folding-schemes/src/folding/nova/circuits.rs`, lines 129-338), as a pure
function from the witness bundle to the synthesis trace. Each `let` mirrors
one statement of the source, in source order. -/
def generateConstraints (p q : Nat) (F : FCirc p) (b : Bundle p q) :
    Trace p q :=
  let ppHashV := b.pp_hash.getD 0
  let iV := b.i.getD 0
  let z0V := b.z_0.getD (List.replicate F.stateLen 0)
  let ziV := b.z_i.getD (List.replicate F.stateLen 0)
  let extV := b.external_inputs.getD (List.replicate F.externalInputsLen 0)
  let uDummy := CommittedInstance.dummy p q 2
  let UiV := b.U_i.getD uDummy
  let Ui1cmEV := b.U_i1_cmE.getD (Point1.zero q)
  let Ui1cmWV := b.U_i1_cmW.getD (Point1.zero q)
  let cmTV := b.cmT.getD (Point1.zero q)
  let cfUDummy := CycleFoldCommittedInstance.dummy p q CycleFoldIOLen
  let cfUiV := b.cf_U_i.getD cfUDummy
  let cf1cmTV := b.cf1_cmT.getD (Point2.zero p)
  let cf2cmTV := b.cf2_cmT.getD (Point2.zero p)
  -- `sponge` is fresh for digest computation; `transcript` is its clone.
  let transcript0 : SpongeState p := []
  let isBasecase : Bool := decide (iV = 0)
  -- P.1: u_i.x[0] = H(pp, i, z_0, z_i, U_i), u_i.x[1] = H(pp, cf_U_i)
  let hres1 := UiV.hash ppHashV iV z0V ziV
  let uiX := hres1.1
  let UiVec := hres1.2
  let hres2 := cfUiV.hash ppHashV
  let cfUiX := hres2.1
  let cfUiVec := hres2.2
  -- P.2: construct u_i
  let uiCmWV := b.u_i_cmW.getD (Point1.zero q)
  let ui : CommittedInstance p q :=
    { cmE := Point1.zero q, u := 1, cmW := uiCmWV, x := [uiX, cfUiX] }
  -- P.3: NIFS verify, then overwrite the deferred cmE/cmW
  let vres := NIFSGadgetVerify p q transcript0 ppHashV UiV UiVec ui cmTV
  let Ui1folded := vres.1.1
  let rBits := vres.1.2
  let transcript1 := vres.2
  let Ui1 : CommittedInstance p q :=
    { Ui1folded with cmE := Ui1cmEV, cmW := Ui1cmWV }
  -- r_bits resized to the base field's bit width; same integer value
  let rNonnat := bitsToNat rBits
  -- P.4.a: obtain z_{i+1} from the F circuit at the native step index
  let iUsize := b.i_usize.getD 0
  let zi1 := F.step iUsize ziV extV
  let hres3 := Ui1.hash ppHashV (iV + 1) z0V zi1
  let ui1X := hres3.1
  let hres4 := uDummy.hash ppHashV 1 z0V zi1
  let ui1XBase := hres4.1
  let xV := b.x.getD ui1XBase
  -- CycleFold part: C.1 the two public-input vectors
  let cfWx : List (ZMod q) :=
    [(rNonnat : ZMod q), UiV.cmW.x, UiV.cmW.y, ui.cmW.x, ui.cmW.y,
      Ui1.cmW.x, Ui1.cmW.y]
  let cfEx : List (ZMod q) :=
    [(rNonnat : ZMod q), UiV.cmE.x, UiV.cmE.y, cmTV.x, cmTV.y,
      Ui1.cmE.x, Ui1.cmE.y]
  -- C.2: construct cf1_u_i and cf2_u_i
  let cf1uiCmWV := b.cf1_u_i_cmW.getD (Point2.zero p)
  let cf1ui : CycleFoldCommittedInstance p q :=
    { cmE := Point2.zero p, u := 1, cmW := cf1uiCmWV, x := cfWx }
  let cf2uiCmWV := b.cf2_u_i_cmW.getD (Point2.zero p)
  let cf2ui : CycleFoldCommittedInstance p q :=
    { cmE := Point2.zero p, u := 1, cmW := cf2uiCmWV, x := cfEx }
  -- C.3: two sequential CycleFold folds over the shared transcript
  let cres1 := cfGetChallengeGadget p q transcript1 ppHashV cfUiVec cf1ui cf1cmTV
  let cf1rBits := cres1.1
  let transcript2 := cres1.2
  let cf1Ui1 := NIFSFullGadgetFold p q cf1rBits cf1cmTV cfUiV cf1ui
  let cres2 := cfGetChallengeGadget p q transcript2 ppHashV
    cf1Ui1.serialize cf2ui cf2cmTV
  let cf2rBits := cres2.1
  let cfUi1 := NIFSFullGadgetFold p q cf2rBits cf2cmTV cf1Ui1 cf2ui
  -- P.4.b: second public output
  let hres5 := cfUi1.hash ppHashV
  let cfUi1X := hres5.1
  let hres6 := cfUDummy.hash ppHashV
  let cfUi1XBase := hres6.1
  let cfXV := b.cf_x.getD cfUi1XBase
  { pp_hash := ppHashV, i := iV, z_0 := z0V, z_i := ziV,
    external_inputs := extV, U_i := UiV, U_i1_cmE := Ui1cmEV,
    U_i1_cmW := Ui1cmWV, cmT := cmTV, cf_U_i := cfUiV, cf1_cmT := cf1cmTV,
    cf2_cmT := cf2cmTV, is_basecase := isBasecase,
    u_i_x := uiX, U_i_vec := UiVec, cf_u_i_x := cfUiX, cf_U_i_vec := cfUiVec,
    u_i := ui, U_i1 := Ui1, r_bits := rBits, r_nonnat := rNonnat,
    stepIndex := iUsize, z_i1 := zi1, u_i1_x := ui1X,
    u_i1_x_base := ui1XBase, x := xV, cfW_x := cfWx, cfE_x := cfEx,
    cf1_u_i := cf1ui, cf2_u_i := cf2ui, cf1_r_bits := cf1rBits,
    cf1_U_i1 := cf1Ui1, cf2_r_bits := cf2rBits, cf_U_i1 := cfUi1,
    cf_u_i1_x := cfUi1X, cf_u_i1_x_base := cfUi1XBase, cf_x := cfXV,
    allocs :=
      [⟨.witness, "pp_hash", 1⟩, ⟨.witness, "i", 1⟩,
        ⟨.witness, "z_0", z0V.length⟩, ⟨.witness, "z_i", ziV.length⟩,
        ⟨.witness, "external_inputs", extV.length⟩,
        ⟨.witness, "U_i", 1 + UiV.x.length + 4⟩,
        ⟨.witness, "U_i1_cmE", 2⟩, ⟨.witness, "U_i1_cmW", 2⟩,
        ⟨.witness, "cmT", 2⟩,
        ⟨.witness, "cf_U_i", 1 + cfUiV.x.length + 4⟩,
        ⟨.witness, "cf1_cmT", 2⟩, ⟨.witness, "cf2_cmT", 2⟩,
        ⟨.constant, "u_i.cmE", 2⟩, ⟨.witness, "u_i.cmW", 2⟩,
        ⟨.constant, "u_dummy", 1 + 2 + 4⟩, ⟨.input, "x", 1⟩,
        ⟨.constant, "cf1_u_i.u", 1⟩, ⟨.witness, "cf1_u_i.cmW", 2⟩,
        ⟨.constant, "cf2_u_i.u", 1⟩, ⟨.witness, "cf2_u_i.cmW", 2⟩,
        ⟨.constant, "cf_u_dummy", 1 + CycleFoldIOLen + 4⟩,
        ⟨.input, "cf_x", 1⟩],
    constraints :=
      [(xV, if isBasecase then ui1XBase else ui1X),
        (cfXV, if isBasecase then cfUi1XBase else cfUi1X)] }

/-- A trivial step function over the 5-element field, used for concrete
instantiations: state and external-input width 1, `F(z) = z`. -/
def Ftriv : FCirc 5 :=
  { stateLen := 1, externalInputsLen := 1, step := fun _ z _ => z }

/-- A bundle that claims deliberately wrong folded commitments: all fields
absent except `U_i1_cmE` and `U_i1_cmW`, which are set to a nonzero point. -/
def wrongCmBundle : Bundle 5 7 :=
  { Bundle.empty 5 7 with U_i1_cmE := some ⟨1, 1⟩, U_i1_cmW := some ⟨1, 1⟩ }

/-- The in-circuit bit recomposition agrees with the native one: both equal
the integer value of the little-endian bits, reduced into the field. -/
theorem leBitsToFp_eq_fromBitsLE (p : Nat) (bs : List Bool) :
    leBitsToFp p bs = fromBitsLE p bs := by
  induction bs with
  | nil => simp [leBitsToFp, fromBitsLE, bitsToNat]
  | cons b t ih =>
    simp only [leBitsToFp, fromBitsLE, bitsToNat, List.foldr_cons] at *
    rw [ih]
    push_cast
    ring

/-- C2: for every input bundle, `generate_constraints` computes both candidate
first outputs, the base-case hash `H(pp_hash, 1, z_0, z_{i+1}, dummy)` and the
recursive hash `H(pp_hash, i+1, z_0, z_{i+1}, U_{i+1})`, and enforces that the
public input `x` equals the one selected by the in-circuit boolean
`is_basecase = (i == 0)`; both branches are always present in the trace, with
no early return. -/
theorem both_output_branches_constrained (p q : Nat) (F : FCirc p)
    (b : Bundle p q) :
    let t := generateConstraints p q F b
    t.u_i1_x = (t.U_i1.hash t.pp_hash (t.i + 1) t.z_0 t.z_i1).1 ∧
    t.u_i1_x_base =
      ((CommittedInstance.dummy p q 2).hash t.pp_hash 1 t.z_0 t.z_i1).1 ∧
    t.is_basecase = decide (t.i = 0) ∧
    (t.x, if t.is_basecase then t.u_i1_x_base else t.u_i1_x) ∈
      t.constraints := by
  exact ⟨rfl, rfl, rfl, List.Mem.head _⟩

/-- C3: the two CycleFold folds happen sequentially in this exact order,
`cf1_U_{i+1} = Fold(cf_U_i, cf1_u_i, cf1_cmT)` first and then
`cf_U_{i+1} = Fold(cf1_U_{i+1}, cf2_u_i, cf2_cmT)` (the second challenge also
being derived from the transcript state left by the first), and the second
public input `cf_x` is enforced equal to the `is_basecase`-selected value
between `H(pp_hash, cf_dummy)` and `H(pp_hash, cf_U_{i+1})`. -/
theorem cyclefold_sequential_folds (p q : Nat) (F : FCirc p)
    (b : Bundle p q) :
    let t := generateConstraints p q F b
    t.cf1_U_i1 = NIFSFullGadgetFold p q t.cf1_r_bits t.cf1_cmT t.cf_U_i
      t.cf1_u_i ∧
    t.cf_U_i1 = NIFSFullGadgetFold p q t.cf2_r_bits t.cf2_cmT t.cf1_U_i1
      t.cf2_u_i ∧
    t.cf2_r_bits = (cfGetChallengeGadget p q
      (cfGetChallengeGadget p q (NIFSGadgetVerify p q [] t.pp_hash t.U_i
        t.U_i_vec t.u_i t.cmT).2 t.pp_hash t.cf_U_i_vec t.cf1_u_i
        t.cf1_cmT).2
      t.pp_hash t.cf1_U_i1.serialize t.cf2_u_i t.cf2_cmT).1 ∧
    t.cf_u_i1_x = (t.cf_U_i1.hash t.pp_hash).1 ∧
    t.cf_u_i1_x_base =
      ((CycleFoldCommittedInstance.dummy p q CycleFoldIOLen).hash
        t.pp_hash).1 ∧
    (t.cf_x, if t.is_basecase then t.cf_u_i1_x_base else t.cf_u_i1_x) ∈
      t.constraints := by
  exact ⟨rfl, rfl, rfl, rfl, rfl, List.Mem.tail _ (List.Mem.head _)⟩

/-- C5: the incoming primary instance `u_i` assembled in-circuit always has
`cmE` the constant identity point, `u` the constant `1`, `cmW` the
prover-supplied witness, and `x` equal to the two-element vector
`[H(pp_hash, i, z_0, z_i, U_i), H(pp_hash, cf_U_i)]` computed by the two
committed-instance hash gadgets. -/
theorem incoming_instance_shape (p q : Nat) (F : FCirc p) (b : Bundle p q) :
    let t := generateConstraints p q F b
    t.u_i.cmE = Point1.zero q ∧
    t.u_i.u = 1 ∧
    t.u_i.cmW = b.u_i_cmW.getD (Point1.zero q) ∧
    t.u_i.x = [(t.U_i.hash t.pp_hash t.i t.z_0 t.z_i).1,
      (t.cf_U_i.hash t.pp_hash).1] ∧
    Alloc.mk .constant "u_i.cmE" 2 ∈ t.allocs ∧
    Alloc.mk .witness "u_i.cmW" 2 ∈ t.allocs := by
  refine ⟨rfl, rfl, rfl, rfl, ?_, ?_⟩ <;> simp [generateConstraints]

/-- C6: the two CycleFold incoming instances built per step each have `u = 1`,
`cmE` the identity, `cmW` a prover witness, and public-input vectors exactly
`[r_nonnat, U_i.cmW.x, U_i.cmW.y, u_i.cmW.x, u_i.cmW.y, U_{i+1}.cmW.x,
U_{i+1}.cmW.y]` for the `cmW` fold and `[r_nonnat, U_i.cmE.x, U_i.cmE.y,
cmT.x, cmT.y, U_{i+1}.cmE.x, U_{i+1}.cmE.y]` for the `cmE` fold, with the
same non-native encoding `r_nonnat` of the primary challenge in both. -/
theorem cyclefold_incoming_instances_layout (p q : Nat) (F : FCirc p)
    (b : Bundle p q) :
    let t := generateConstraints p q F b
    t.cf1_u_i.u = 1 ∧ t.cf1_u_i.cmE = Point2.zero p ∧
    t.cf1_u_i.cmW = b.cf1_u_i_cmW.getD (Point2.zero p) ∧
    t.cf2_u_i.u = 1 ∧ t.cf2_u_i.cmE = Point2.zero p ∧
    t.cf2_u_i.cmW = b.cf2_u_i_cmW.getD (Point2.zero p) ∧
    t.cf1_u_i.x = [(t.r_nonnat : ZMod q), t.U_i.cmW.x, t.U_i.cmW.y,
      t.u_i.cmW.x, t.u_i.cmW.y, t.U_i1.cmW.x, t.U_i1.cmW.y] ∧
    t.cf2_u_i.x = [(t.r_nonnat : ZMod q), t.U_i.cmE.x, t.U_i.cmE.y,
      t.cmT.x, t.cmT.y, t.U_i1.cmE.x, t.U_i1.cmE.y] ∧
    t.r_nonnat = bitsToNat t.r_bits := by
  exact ⟨rfl, rfl, rfl, rfl, rfl, rfl, rfl, rfl, rfl⟩

/-- C8: the constraint system produced by one call to `generate_constraints`
has exactly two public-input allocations, in order `x` then `cf_x`, one field
element each; every other allocation performed by the circuit is a witness or
a constant. -/
theorem public_input_layout (p q : Nat) (F : FCirc p) (b : Bundle p q) :
    (generateConstraints p q F b).allocs.filter
        (fun a => decide (a.kind = AllocKind.input)) =
      [Alloc.mk .input "x" 1, Alloc.mk .input "cf_x" 1] := by
  rfl

/-- C10: the step index passed to `F.generate_step_constraints` is the native
value `i_usize` (defaulting to `0` when absent), not the allocated field
element `i`: two bundles differing only in the field element `i` give the
same step index and the same `z_{i+1}`. -/
theorem step_index_is_native (p q : Nat) (F : FCirc p) (b : Bundle p q)
    (v : Option (ZMod p)) :
    (generateConstraints p q F b).stepIndex = b.i_usize.getD 0 ∧
    (generateConstraints p q F b).z_i1 =
      F.step (b.i_usize.getD 0) (generateConstraints p q F b).z_i
        (generateConstraints p q F b).external_inputs ∧
    (generateConstraints p q F { b with i := v }).stepIndex =
      (generateConstraints p q F b).stepIndex ∧
    (generateConstraints p q F { b with i := v }).z_i1 =
      (generateConstraints p q F b).z_i1 := by
  exact ⟨rfl, rfl, rfl, rfl⟩

set_option maxRecDepth 10000 in
/-- C1: the folded accumulator `U_{i+1}` returned by the primary NIFS
verifier has its `cmE` and `cmW` fields overwritten with the caller-supplied
witness values (defaulting to the zero point when absent), and the primary
fold adds no constraint forcing them to equal
`U_i.cmE + r·u_i.cmE + r²·cmT` and `U_i.cmW + r·u_i.cmW`: there is a bundle
whose constraint system is satisfied although both claimed commitments differ
from the algebraically correct values. -/
theorem nifs_deferred_commitments_unconstrained :
    (∀ (p q : Nat) (F : FCirc p) (b : Bundle p q),
      (generateConstraints p q F b).U_i1.cmE =
        b.U_i1_cmE.getD (Point1.zero q) ∧
      (generateConstraints p q F b).U_i1.cmW =
        b.U_i1_cmW.getD (Point1.zero q)) ∧
    (let t := generateConstraints 5 7 Ftriv wrongCmBundle;
      t.satisfied ∧
      t.U_i1.cmE ≠ (t.U_i.cmE.add (Point1.smul t.r_nonnat t.u_i.cmE)).add
        (Point1.smul (t.r_nonnat * t.r_nonnat) t.cmT) ∧
      t.U_i1.cmW ≠ t.U_i.cmW.add (Point1.smul t.r_nonnat t.u_i.cmW)) := by
  refine ⟨fun p q F b => ⟨rfl, rfl⟩, ?_, ?_, ?_⟩ <;> decide

/-- C4: for all primary committed instances `U`, `u` and the Fiat-Shamir
challenge `r` derived by the NIFS verifier, the folded accumulator returned by
`NIFSGadget::verify` satisfies `U'.u = U.u + r·u.u` and
`U'.x[k] = U.x[k] + r·u.x[k]` for every index `k` (the challenge being
whatever value the transcript produces, with no restriction excluding `r = 0`
or the maximal representable value). -/
theorem nifs_fold_linearity (p q : Nat) (ts : SpongeState p) (pp : ZMod p)
    (U : CommittedInstance p q) (Uvec : List (ZMod p))
    (u : CommittedInstance p q) (cmT : Point1 q) :
    (NIFSGadgetVerify p q ts pp U Uvec u cmT).1.1.u =
      U.u + (bitsToNat (NIFSGadgetVerify p q ts pp U Uvec u cmT).1.2 :
        ZMod p) * u.u ∧
    ∀ k, ∀ h1 : k < U.x.length, ∀ h2 : k < u.x.length,
      (NIFSGadgetVerify p q ts pp U Uvec u cmT).1.1.x.get
          ⟨k, by simpa [NIFSGadgetVerify] using ⟨h1, h2⟩⟩ =
        U.x.get ⟨k, h1⟩ +
          (bitsToNat (NIFSGadgetVerify p q ts pp U Uvec u cmT).1.2 :
            ZMod p) * u.x.get ⟨k, h2⟩ := by
  refine ⟨rfl, fun k h1 h2 => ?_⟩
  simp [NIFSGadgetVerify, List.get_eq_getElem, List.getElem_zipWith]

/-- A concrete running instance over the 5- and 7-element fields. -/
def runningExample : CommittedInstance 5 7 := ⟨⟨1, 2⟩, 3, ⟨4, 5⟩, [2]⟩

/-- A concrete incoming instance over the 5- and 7-element fields. -/
def incomingExample : CommittedInstance 5 7 := ⟨⟨0, 1⟩, 1, ⟨2, 3⟩, [4]⟩

/-- Witness for C4: a concrete instantiation over the 5- and 7-element
fields, with one-element public-input vectors, evaluated at index 0. -/
theorem nifs_fold_linearity_witness :
    (NIFSGadgetVerify 5 7 [] 0 runningExample [0] incomingExample
        ⟨1, 1⟩).1.1.x.get ⟨0, by decide⟩ =
    runningExample.x.get ⟨0, by decide⟩ +
      (bitsToNat (NIFSGadgetVerify 5 7 [] 0 runningExample [0]
          incomingExample ⟨1, 1⟩).1.2 : ZMod 5) *
        incomingExample.x.get ⟨0, by decide⟩ :=
  (nifs_fold_linearity 5 7 [] 0 runningExample [0] incomingExample
    ⟨1, 1⟩).2 0 (by decide) (by decide)

/-- C7: for every committed-instance pair `U`, `u` and cross-term `cmT`, the
native challenge computation and the in-circuit challenge gadget, run over
the same transcript state with the gadget receiving the running instance's
serialized vector, produce identical bit sequences, and reassembling those
bits into a field element (in-circuit weighted sum vs. native big-integer
conversion) yields the same value in both. -/
theorem challenge_native_gadget_equivalence (p q : Nat) (ts : SpongeState p)
    (pp : ZMod p) (U u : CommittedInstance p q) (cmT : Point1 q) :
    (getChallengeGadget p q ts pp U.serialize u cmT).1 =
      (getChallengeNative p q ts pp U u cmT).1 ∧
    leBitsToFp p (getChallengeGadget p q ts pp U.serialize u cmT).1 =
      fromBitsLE p (getChallengeNative p q ts pp U u cmT).1 := by
  exact ⟨rfl, leBitsToFp_eq_fromBitsLE p _⟩

/-- C9 counterexample: the public input `x`, when absent from the bundle, is
not allocated with a zero/dummy default: on the all-absent bundle over the 5-
and 7-element fields it is allocated with the in-circuit base-case hash
value, which is nonzero. -/
theorem absent_x_default_not_zero :
    (Bundle.empty 5 7).x = none ∧
    (generateConstraints 5 7 Ftriv (Bundle.empty 5 7)).x ≠ 0 ∧
    (generateConstraints 5 7 Ftriv (Bundle.empty 5 7)).x =
      (generateConstraints 5 7 Ftriv (Bundle.empty 5 7)).u_i1_x_base := by
  exact ⟨rfl, by decide, rfl⟩

/-- C9 as amended: every absent bundle field is allocated with its dummy/zero
default (zero scalars and vectors, the zero curve point, the dummy committed
instance of the declared width), except the public inputs `x` and `cf_x`,
which default to the in-circuit computed base-case hash values
`u_i1_x_base` and `cf_u_i1_x_base` rather than to zero. -/
theorem absent_fields_get_defaults (p q : Nat) (F : FCirc p)
    (b : Bundle p q) :
    (b.pp_hash = none → (generateConstraints p q F b).pp_hash = 0) ∧
    (b.i = none → (generateConstraints p q F b).i = 0) ∧
    (b.i_usize = none → (generateConstraints p q F b).stepIndex = 0) ∧
    (b.z_0 = none → (generateConstraints p q F b).z_0 =
      List.replicate F.stateLen 0) ∧
    (b.z_i = none → (generateConstraints p q F b).z_i =
      List.replicate F.stateLen 0) ∧
    (b.external_inputs = none → (generateConstraints p q F b).external_inputs
      = List.replicate F.externalInputsLen 0) ∧
    (b.U_i = none → (generateConstraints p q F b).U_i =
      CommittedInstance.dummy p q 2) ∧
    (b.U_i1_cmE = none → (generateConstraints p q F b).U_i1_cmE =
      Point1.zero q) ∧
    (b.U_i1_cmW = none → (generateConstraints p q F b).U_i1_cmW =
      Point1.zero q) ∧
    (b.cmT = none → (generateConstraints p q F b).cmT = Point1.zero q) ∧
    (b.u_i_cmW = none → (generateConstraints p q F b).u_i.cmW =
      Point1.zero q) ∧
    (b.cf_U_i = none → (generateConstraints p q F b).cf_U_i =
      CycleFoldCommittedInstance.dummy p q CycleFoldIOLen) ∧
    (b.cf1_cmT = none → (generateConstraints p q F b).cf1_cmT =
      Point2.zero p) ∧
    (b.cf2_cmT = none → (generateConstraints p q F b).cf2_cmT =
      Point2.zero p) ∧
    (b.cf1_u_i_cmW = none → (generateConstraints p q F b).cf1_u_i.cmW =
      Point2.zero p) ∧
    (b.cf2_u_i_cmW = none → (generateConstraints p q F b).cf2_u_i.cmW =
      Point2.zero p) ∧
    (b.x = none → (generateConstraints p q F b).x =
      (generateConstraints p q F b).u_i1_x_base) ∧
    (b.cf_x = none → (generateConstraints p q F b).cf_x =
      (generateConstraints p q F b).cf_u_i1_x_base) := by
  refine ⟨?_, ?_, ?_, ?_, ?_, ?_, ?_, ?_, ?_, ?_, ?_, ?_, ?_, ?_, ?_, ?_,
    ?_, ?_⟩ <;> intro h <;> simp [generateConstraints, h]

/-- Witness for the amended C9: all defaults evaluated on the all-absent
bundle over the 5- and 7-element fields. -/
theorem absent_fields_get_defaults_witness :
    (generateConstraints 5 7 Ftriv (Bundle.empty 5 7)).pp_hash = 0 ∧
    (generateConstraints 5 7 Ftriv (Bundle.empty 5 7)).i = 0 ∧
    (generateConstraints 5 7 Ftriv (Bundle.empty 5 7)).U_i =
      CommittedInstance.dummy 5 7 2 ∧
    (generateConstraints 5 7 Ftriv (Bundle.empty 5 7)).cf_U_i =
      CycleFoldCommittedInstance.dummy 5 7 CycleFoldIOLen ∧
    (generateConstraints 5 7 Ftriv (Bundle.empty 5 7)).x =
      (generateConstraints 5 7 Ftriv (Bundle.empty 5 7)).u_i1_x_base ∧
    (generateConstraints 5 7 Ftriv (Bundle.empty 5 7)).cf_x =
      (generateConstraints 5 7 Ftriv (Bundle.empty 5 7)).cf_u_i1_x_base :=
  ⟨(absent_fields_get_defaults 5 7 Ftriv (Bundle.empty 5 7)).1 rfl,
    (absent_fields_get_defaults 5 7 Ftriv (Bundle.empty 5 7)).2.1 rfl,
    (absent_fields_get_defaults 5 7 Ftriv
      (Bundle.empty 5 7)).2.2.2.2.2.2.1 rfl,
    (absent_fields_get_defaults 5 7 Ftriv
      (Bundle.empty 5 7)).2.2.2.2.2.2.2.2.2.2.2.1 rfl,
    (absent_fields_get_defaults 5 7 Ftriv
      (Bundle.empty 5 7)).2.2.2.2.2.2.2.2.2.2.2.2.2.2.2.2.1 rfl,
    (absent_fields_get_defaults 5 7 Ftriv
      (Bundle.empty 5 7)).2.2.2.2.2.2.2.2.2.2.2.2.2.2.2.2.2 rfl⟩

end Sonobe
